import Mathlib

/-!
Verification development for the transformer forward-pass and cache
contract of the `gemma` repository (Embedder, Attention with key/value
cache, FeedForward, Block).  The module implementations live in
`gemma/modules.py`, which is not part of the sources available here
(only `gemma/modules_test.py` and re-export glue are), so every
definition below is modelled from the repository specification.  Exact
rational arithmetic stands in for the floating-point arrays; the
numerical primitives the specification leaves unspecified (the softmax
exponential, the inverse square root used by normalization, the
positional encoding applied to queries and keys, the feed-forward
activation) are taken as explicit function parameters, and theorems
assume of them only what the specification implies (for instance that
the softmax exponential is positive).
-/

namespace GemmaSpec

/-- A tensor axis is a list of rationals; higher-rank tensors are nested
lists, outermost axis first. -/
abbrev Vec := List ℚ

/-- A rank-2 tensor: a list of rows. -/
abbrev Mat := List Vec

/-- Dot product of two vectors (componentwise product, then sum). -/
def dot (a b : Vec) : ℚ := (List.zipWith (· * ·) a b).sum

/-- Apply a linear map given by its rows: `matVec m x` has one entry
`dot row x` per row of `m`. -/
def matVec (m : Mat) (x : Vec) : Vec := m.map (fun row => dot row x)

/-- Elementwise sum of two vectors. -/
def addVec (a b : Vec) : Vec := List.zipWith (· + ·) a b

/-- Modelled from the spec: the attention-variant configuration value of
the missing `gemma/modules.py` (`attn_type ∈ {GLOBAL, LOCAL_SLIDING}`). -/
inductive AttentionType where
  | GLOBAL
  | LOCAL_SLIDING
  deriving DecidableEq, Repr

/-- Modelled from the spec: the per-attention-layer key/value cache of
the missing `gemma/modules.py`.  Keys and values are rank-4 tensors of
shape `[batch, cache_size, num_kv_heads, head_dim]`. -/
structure LayerCache where
  k : List (List (List Vec))
  v : List (List (List Vec))
  deriving DecidableEq, Repr

/-- Shape predicate for a rank-4 tensor `[a, b, c, d]`. -/
def shape4 (a b c d : ℕ) (t : List (List (List Vec))) : Prop :=
  t.length = a ∧ ∀ u ∈ t, u.length = b ∧ ∀ s ∈ u, s.length = c ∧ ∀ w ∈ s, w.length = d

/-- Shape predicate for a rank-3 tensor `[a, b, c]`. -/
def shape3 (a b c : ℕ) (t : List (List Vec)) : Prop :=
  t.length = a ∧ ∀ u ∈ t, u.length = b ∧ ∀ s ∈ u, s.length = c

/-- Every scalar entry of a rank-4 tensor is zero. -/
def allZero4 (t : List (List (List Vec))) : Prop :=
  ∀ u ∈ t, ∀ s ∈ u, ∀ w ∈ s, ∀ a ∈ w, a = 0

instance (a b c d : ℕ) (t : List (List (List Vec))) : Decidable (shape4 a b c d t) := by
  unfold shape4
  infer_instance

instance (a b c : ℕ) (t : List (List Vec)) : Decidable (shape3 a b c t) := by
  unfold shape3
  infer_instance

instance (t : List (List (List Vec))) : Decidable (allZero4 t) := by
  unfold allZero4
  infer_instance

/-- Modelled from the spec: `Attention.init_cache` of the missing
`gemma/modules.py` — "allocates zero-filled key/value tensors of shape
`[batch_size, cache_size, num_heads, head_dim]`".  The `dtype` argument
of the source has no counterpart in the exact rational model. -/
def init_cache (cache_size num_heads head_dim batch_size : ℕ) : LayerCache :=
  { k := List.replicate batch_size
      (List.replicate cache_size (List.replicate num_heads (List.replicate head_dim 0)))
  , v := List.replicate batch_size
      (List.replicate cache_size (List.replicate num_heads (List.replicate head_dim 0))) }

lemma shape4_replicate (B C H D : ℕ) :
    shape4 B C H D
      (List.replicate B (List.replicate C (List.replicate H (List.replicate D (0 : ℚ))))) := by
  refine ⟨List.length_replicate _ _, ?_⟩
  intro u hu
  rw [List.eq_of_mem_replicate hu]
  refine ⟨List.length_replicate _ _, ?_⟩
  intro s hs
  rw [List.eq_of_mem_replicate hs]
  refine ⟨List.length_replicate _ _, ?_⟩
  intro w hw
  rw [List.eq_of_mem_replicate hw]
  exact List.length_replicate _ _

lemma allZero4_replicate (B C H D : ℕ) :
    allZero4
      (List.replicate B (List.replicate C (List.replicate H (List.replicate D (0 : ℚ))))) := by
  intro u hu s hs w hw a ha
  rw [List.eq_of_mem_replicate hu] at hs
  rw [List.eq_of_mem_replicate hs] at hw
  rw [List.eq_of_mem_replicate hw] at ha
  exact List.eq_of_mem_replicate ha

/-- Modelled from the spec: the construction-time configuration surface
of the missing `gemma/modules.py` `Attention` module (`num_heads`,
`num_kv_heads`, `features`, `head_dim`, `attn_type`,
`sliding_window_size` required iff `LOCAL_SLIDING`). -/
structure AttnConfig where
  num_heads : ℕ
  num_kv_heads : ℕ
  features : ℕ
  head_dim : ℕ
  attn_type : AttentionType
  sliding_window_size : Option ℕ
  deriving DecidableEq, Repr

/-- Modelled from the spec: the parameter tensors of the missing
`gemma/modules.py` `Attention` module — "per-head linear maps"
(`num_heads` query heads, `num_kv_heads` key/value heads) and an
"output projection back to `features` width".  The parameter structure
does not depend on `attn_type`. -/
structure AttnParams where
  wq : List Mat
  wk : List Mat
  wv : List Mat
  wo : Mat
  deriving DecidableEq, Repr

/-- The numeric primitives the specification leaves abstract: the
exponential used by the softmax and the scalar used for the "scaled
dot-product scores" (`1/sqrt(head_dim)` upstream, irrational in
general). -/
structure Numerics where
  fexp : ℚ → ℚ
  scale : ℚ

/-- Modelled from the spec: the sliding-window masking policy of the
missing `gemma/modules.py` — "a pure masking policy layered on top of
the caller-supplied mask": for `LOCAL_SLIDING`, a query may "attend
only to the most recent W cache positions", i.e. cache position `j` is
attendable iff `j ≤ qpos` and `qpos - j < W`; for `GLOBAL` no position
is removed. -/
def slidingMask (cfg : AttnConfig) (qpos : ℕ) (cacheLen : ℕ) : List ℚ :=
  match cfg.attn_type with
  | .GLOBAL => List.replicate cacheLen 1
  | .LOCAL_SLIDING =>
      (List.range cacheLen).map (fun j =>
        if j ≤ qpos ∧ qpos - j < cfg.sliding_window_size.getD 0 then 1 else 0)

/-- Masked, unnormalized softmax weights of one head over the cache
slots: caller mask (already combined with the sliding mask) times the
exponential of the scaled query/key dot product. -/
def headWeights (nm : Numerics) (q : Vec) (ks : List Vec) (m : List ℚ) : List ℚ :=
  List.zipWith (fun kj mj => mj * nm.fexp (nm.scale * dot kj q)) ks m

/-- Weighted sum of the cached value vectors (`head_dim`-wide). -/
def weightedSum (ws : List ℚ) (vs : List Vec) (dim : ℕ) : Vec :=
  (List.zipWith (fun w v => v.map (fun a => w * a)) ws vs).foldr addVec
    (List.replicate dim 0)

/-- One attention head: softmax over the unmasked cache slots, then the
weighted sum of cached values.  (Since mask entries are 0/1 factors on
the weights, this is the same as setting masked scores to `-inf`.) -/
def attendHead (nm : Numerics) (dim : ℕ) (q : Vec) (ks vs : List Vec) (m : List ℚ) : Vec :=
  let ws := headWeights nm q ks m
  (weightedSum ws vs dim).map (fun a => a / ws.sum)

/-- Modelled from the spec: the per-query attention computation of the
missing `gemma/modules.py` — scaled dot-product scores between the
(position-encoded) query heads and the full updated cache, caller mask
combined with the sliding-window mask, softmax, weighted sum of cached
values, concatenation across heads, output projection.  Grouped-query
repetition: query head `h` reads key/value head `h / (num_heads /
num_kv_heads)`. -/
def attnQuery (cfg : AttnConfig) (nm : Numerics) (posEnc : ℕ → Vec → Vec)
    (p : AttnParams) (kc vc : List (List Vec)) (xt : Vec) (qpos : ℕ)
    (mrow : List ℚ) : Vec :=
  let group := cfg.num_heads / cfg.num_kv_heads
  let mcomb := List.zipWith (· * ·) mrow (slidingMask cfg qpos kc.length)
  let heads := (List.range cfg.num_heads).map (fun h =>
    let q := posEnc qpos (matVec (p.wq.getD h []) xt)
    let ks := kc.map (fun slot => slot.getD (h / group) [])
    let vs := vc.map (fun slot => slot.getD (h / group) [])
    attendHead nm cfg.head_dim q ks vs mcomb)
  matVec p.wo heads.flatten

/-- Write a sequence of per-position updates into one batch row of one
cache side; position `i` goes to slot `i % cache_size` (rolling
buffer). -/
def setAll (row : List (List Vec)) (ups : List (ℕ × List Vec)) : List (List Vec) :=
  ups.foldl (fun acc pn => acc.set (pn.1 % acc.length) pn.2) row

/-- Modelled from the spec: the single-batch-element forward pass of the
missing `gemma/modules.py` `Attention` module — project the inputs to
per-head keys/values, position-encode keys, write them into the cache
at the positions given by `segment_pos`, then attend each query
against the full updated cache. -/
def attnRow (cfg : AttnConfig) (nm : Numerics) (posEnc : ℕ → Vec → Vec)
    (p : AttnParams) (xb : List Vec) (pb : List ℕ)
    (kb vb : List (List Vec)) (mb : List (List ℚ)) :
    (List (List Vec) × List (List Vec)) × List Vec :=
  let newK := List.zipWith
    (fun xt pt => p.wk.map (fun m => posEnc pt (matVec m xt))) xb pb
  let newV := xb.map (fun xt => p.wv.map (fun m => matVec m xt))
  let k2 := setAll kb (pb.zip newK)
  let v2 := setAll vb (pb.zip newV)
  ((k2, v2),
    (List.range xb.length).map (fun t =>
      attnQuery cfg nm posEnc p k2 v2 (xb.getD t []) (pb.getD t 0) (mb.getD t [])))

/-- Modelled from the spec: the forward pass of the missing
`gemma/modules.py` `Attention` module.  Inputs: activations `x` of
shape `[batch, query_len, features]`, absolute positions `segPos` of
shape `[batch, query_len]`, the key/value cache, and a caller-supplied
mask of shape `[batch, query_len, cache_size]`.  Returns
`(updated_cache, output)` with output shape
`[batch, query_len, features]` — a functional update, the input cache
value is untouched. -/
def attnForward (cfg : AttnConfig) (nm : Numerics) (posEnc : ℕ → Vec → Vec)
    (p : AttnParams) (x : List (List Vec)) (segPos : List (List ℕ))
    (cache : LayerCache) (mask : List (List (List ℚ))) :
    LayerCache × List (List Vec) :=
  let rows := (List.range x.length).map (fun b =>
    attnRow cfg nm posEnc p (x.getD b []) (segPos.getD b [])
      (cache.k.getD b []) (cache.v.getD b []) (mask.getD b []))
  ({ k := rows.map (fun r => r.1.1), v := rows.map (fun r => r.1.2) },
    rows.map (fun r => r.2))

/-- Modelled from the spec: the learned parameters of one normalization
layer of the missing `gemma/modules.py`.  The spec names the
normalization layers without giving a formula; they are modelled as
root-mean-square normalization with a learned per-channel scale, the
standard normalization of this architecture.  `eps` is the small
stabilizing constant added to the mean square. -/
structure NormParams where
  scale : Vec
  eps : ℚ
  deriving DecidableEq, Repr

/-- Modelled from the spec: normalization of one feature vector —
divide by the root of (mean square + eps) and apply the learned
per-channel scale.  The inverse square root is supplied as the function
parameter `rs` (irrational in general). -/
def rmsNorm (rs : ℚ → ℚ) (np : NormParams) (x : Vec) : Vec :=
  let ms := (x.map (fun a => a * a)).sum / (x.length : ℚ)
  List.zipWith (fun xi si => xi * rs (ms + np.eps) * (1 + si)) x np.scale

/-- Modelled from the spec: the parameter tensors of the missing
`gemma/modules.py` `FeedForward` module — the `gating_einsum` tensor
holding the two parallel projections (gate and up, `features →
hidden_dim` each) and the `linear` down projection (`hidden_dim →
features`). -/
structure FFWParams where
  gating1 : Mat
  gating2 : Mat
  linear : Mat
  deriving DecidableEq, Repr

/-- Modelled from the spec: the missing `gemma/modules.py` `FeedForward`
— a gated MLP combining the two projections as `activation(gate) * up`,
then projecting down to `features`.  The activation is supplied as the
function parameter `act` (the spec does not name it). -/
def feedForward (act : ℚ → ℚ) (fp : FFWParams) (x : Vec) : Vec :=
  let gate := matVec fp.gating1 x
  let up := matVec fp.gating2 x
  matVec fp.linear (List.zipWith (fun g u => act g * u) gate up)

/-- Modelled from the spec: the construction-time configuration of the
missing `gemma/modules.py` `Block` module. -/
structure BlockConfig where
  num_heads : ℕ
  num_kv_heads : ℕ
  embed_dim : ℕ
  head_dim : ℕ
  hidden_dim : ℕ
  use_post_attn_norm : Bool
  use_post_ffw_norm : Bool
  attn_type : AttentionType
  sliding_window_size : Option ℕ
  deriving DecidableEq, Repr

/-- The attention configuration a Block passes to its Attention layer
(`features := embed_dim`). -/
def BlockConfig.toAttnConfig (cfg : BlockConfig) : AttnConfig :=
  { num_heads := cfg.num_heads
  , num_kv_heads := cfg.num_kv_heads
  , features := cfg.embed_dim
  , head_dim := cfg.head_dim
  , attn_type := cfg.attn_type
  , sliding_window_size := cfg.sliding_window_size }

/-- Modelled from the spec: the parameters of the missing
`gemma/modules.py` `Block` module — the four normalization layers, the
attention parameters and the feed-forward parameters. -/
structure BlockParams where
  preAttnNorm : NormParams
  attn : AttnParams
  postAttnNorm : NormParams
  preFfwNorm : NormParams
  ffw : FFWParams
  postFfwNorm : NormParams
  deriving DecidableEq, Repr

/-- Elementwise sum of two rank-3 tensors. -/
def addT3 (a b : List (List Vec)) : List (List Vec) :=
  List.zipWith (fun u v => List.zipWith addVec u v) a b

/-- Apply a vector map to every innermost vector of a rank-3 tensor. -/
def mapT3 (f : Vec → Vec) (t : List (List Vec)) : List (List Vec) :=
  t.map (fun u => u.map f)

/-- Modelled from the spec: the missing `gemma/modules.py` `Block`
composition — pre-attention norm, Attention on the block's cache, the
optional post-attention norm, residual add; then pre-FFW norm,
FeedForward, the optional post-FFW norm, residual add.  Returns
`(updated_cache, output)`. -/
def blockForward (cfg : BlockConfig) (nm : Numerics) (posEnc : ℕ → Vec → Vec)
    (rs : ℚ → ℚ) (act : ℚ → ℚ) (p : BlockParams) (x : List (List Vec))
    (segPos : List (List ℕ)) (cache : LayerCache)
    (mask : List (List (List ℚ))) : LayerCache × List (List Vec) :=
  let xn := mapT3 (rmsNorm rs p.preAttnNorm) x
  let res := attnForward cfg.toAttnConfig nm posEnc p.attn xn segPos cache mask
  let attnOut :=
    if cfg.use_post_attn_norm then mapT3 (rmsNorm rs p.postAttnNorm) res.2 else res.2
  let resid := addT3 x attnOut
  let ffwOut := mapT3 (feedForward act p.ffw) (mapT3 (rmsNorm rs p.preFfwNorm) resid)
  let ffwOut2 :=
    if cfg.use_post_ffw_norm then mapT3 (rmsNorm rs p.postFfwNorm) ffwOut else ffwOut
  (res.1, addT3 resid ffwOut2)

/-- Modelled from the spec: `Embedder.encode` of the missing
`gemma/modules.py` — gather rows of the `[vocab_size, embed_dim]` table
by id, then scale by `sqrt(embed_dim)`; the square root is supplied as
the function parameter `sqrtf`. -/
def encode (embed_dim : ℕ) (sqrtf : ℕ → ℚ) (table : Mat) (ids : List ℕ) : Mat :=
  ids.map (fun i => (table.getD i []).map (fun a => a * sqrtf embed_dim))

/-- Modelled from the spec: `Embedder.decode` of the missing
`gemma/modules.py` — `x @ table^T` against the same shared table,
producing one score per vocabulary row. -/
def decode (table : Mat) (x : Vec) : Vec := table.map (fun row => dot x row)

/-- A zero-filled vocabulary/feature table of ones, as the tests build. -/
def onesMat (r c : ℕ) : Mat := List.replicate r (List.replicate c 1)

/-- Rational floor square root on naturals; exact on perfect squares,
used to instantiate the abstract `sqrt` parameter at concrete inputs. -/
def natSqrtQ (n : ℕ) : ℚ := (Nat.sqrt n : ℚ)

lemma dot_zeros (n : ℕ) (v : Vec) : dot (List.replicate n 0) v = 0 := by
  induction n generalizing v with
  | zero => simp [dot]
  | succ k ih =>
      cases v with
      | nil => simp [dot]
      | cons a t =>
          simp only [List.replicate_succ, dot, List.zipWith_cons_cons, List.sum_cons,
            zero_mul, zero_add]
          exact ih t

lemma length_matVec (m : Mat) (x : Vec) : (matVec m x).length = m.length := by
  simp [matVec]

lemma length_setAll (row : List (List Vec)) (ups : List (ℕ × List Vec)) :
    (setAll row ups).length = row.length := by
  induction ups generalizing row with
  | nil => rfl
  | cons a t ih =>
      simp only [setAll, List.foldl_cons]
      rw [show (List.foldl (fun acc pn => acc.set (pn.1 % acc.length) pn.2)
        (row.set (a.1 % row.length) a.2) t) =
          setAll (row.set (a.1 % row.length) a.2) t from rfl]
      rw [ih]
      exact List.length_set row _ _

lemma setAll_forall (P : List Vec → Prop) (row : List (List Vec))
    (ups : List (ℕ × List Vec)) (h1 : ∀ s ∈ row, P s) (h2 : ∀ pn ∈ ups, P pn.2) :
    ∀ s ∈ setAll row ups, P s := by
  induction ups generalizing row with
  | nil => exact h1
  | cons a t ih =>
      intro s hs
      simp only [setAll, List.foldl_cons] at hs
      refine ih (row.set (a.1 % row.length) a.2) ?_ (fun pn hpn => h2 pn (by simp [hpn])) s hs
      intro u hu
      rcases List.mem_or_eq_of_mem_set hu with h | h
      · exact h1 u h
      · exact h ▸ h2 a (by simp)

lemma zipWith_mem {α β γ : Type} (f : α → β → γ) (l1 : List α) (l2 : List β) :
    ∀ c ∈ List.zipWith f l1 l2, ∃ a ∈ l1, ∃ b ∈ l2, c = f a b := by
  induction l1 generalizing l2 with
  | nil => simp
  | cons a t ih =>
      cases l2 with
      | nil => simp
      | cons b u =>
          intro c hc
          rcases List.mem_cons.1 hc with h | h
          · exact ⟨a, by simp, b, by simp, h⟩
          · rcases ih u c h with ⟨a', ha', b', hb', rfl⟩
            exact ⟨a', by simp [ha'], b', by simp [hb'], rfl⟩

/-- Claim C4: `Attention.init_cache(cache_size=C, num_heads=H, head_dim=D,
batch_size=B)` returns a cache whose key and value tensors each have
shape `[B, C, H, D]` and are entirely zero-filled (the `dtype` argument
has no observable effect in the exact model). -/
theorem init_cache_zero_filled (C H D B : ℕ) :
    shape4 B C H D (init_cache C H D B).k ∧ shape4 B C H D (init_cache C H D B).v ∧
    allZero4 (init_cache C H D B).k ∧ allZero4 (init_cache C H D B).v :=
  ⟨shape4_replicate B C H D, shape4_replicate B C H D,
    allZero4_replicate B C H D, allZero4_replicate B C H D⟩

/-- Claim C6: `Embedder.encode` gathers table rows by id and scales by
`sqrt(embed_dim)`: the output has one `embed_dim`-wide row per id, and
with an all-ones `[10, 4]` table, `encode [2, 3]` is
`[[2,2,2,2],[2,2,2,2]]` (any function `sqrtf` with `sqrtf 4 ≥ 0` and
`sqrtf 4 * sqrtf 4 = 4`, i.e. the square root, gives `sqrtf 4 = 2`). -/
theorem encode_gather_scale (sqrtf : ℕ → ℚ) (ed : ℕ) (table : Mat) (ids : List ℕ)
    (hsq : sqrtf 4 * sqrtf 4 = 4) (hnn : 0 ≤ sqrtf 4)
    (hrow : ∀ r ∈ table, r.length = ed) (hid : ∀ i ∈ ids, i < table.length) :
    ((encode ed sqrtf table ids).length = ids.length ∧
      ∀ r ∈ encode ed sqrtf table ids, r.length = ed) ∧
    encode 4 sqrtf (onesMat 10 4) [2, 3] = [[2, 2, 2, 2], [2, 2, 2, 2]] := by
  have h2 : sqrtf 4 = 2 := by nlinarith [sq_nonneg (sqrtf 4 - 2), sq_nonneg (sqrtf 4 + 2)]
  refine ⟨⟨by simp [encode], ?_⟩, ?_⟩
  · intro r hr
    simp only [encode, List.mem_map] at hr
    obtain ⟨i, hi, rfl⟩ := hr
    rw [List.length_map, List.getD_eq_getElem _ _ (hid i hi)]
    exact hrow _ (List.getElem_mem _)
  · simp [encode, onesMat, h2, List.replicate]

/-- Claim C7: `Embedder.decode` computes `x @ table^T` against the shared
table, producing one score per vocabulary row (shape `[vocab_size]`);
with an all-ones `[5, 2]` table, `decode [1, 2]` is `[3,3,3,3,3]`. -/
theorem decode_scores (vocab : ℕ) (table : Mat) (x : Vec)
    (hv : table.length = vocab) :
    (decode table x).length = vocab ∧
    decode (onesMat 5 2) [1, 2] = [3, 3, 3, 3, 3] := by
  refine ⟨by simp [decode, hv], ?_⟩
  simp [decode, onesMat, List.replicate, dot]
  norm_num

/-- Claim C3: The Attention forward pass is a pure functional cache
update: a session that runs one forward call and then a second call
(with any configuration) on the same input cache value produces exactly
the pair of results each call yields on its own — the first call cannot
mutate the caller's cache. -/
theorem attn_forward_pure (cfgA cfgB : AttnConfig) (nmA nmB : Numerics)
    (peA peB : ℕ → Vec → Vec) (pA pB : AttnParams) (xA xB : List (List Vec))
    (spA spB : List (List ℕ)) (c : LayerCache) (mA mB : List (List (List ℚ))) :
    (let r1 := attnForward cfgA nmA peA pA xA spA c mA
     (r1.2, (attnForward cfgB nmB peB pB xB spB c mB).2)) =
      ((attnForward cfgA nmA peA pA xA spA c mA).2,
        (attnForward cfgB nmB peB pB xB spB c mB).2) := rfl

/-- Witness for C6 at `sqrtf := natSqrtQ`, the all-ones `[10, 4]` table
and ids `[2, 3]`. -/
theorem encode_gather_scale_witness :
    ((encode 4 natSqrtQ (onesMat 10 4) [2, 3]).length = [2, 3].length ∧
      ∀ r ∈ encode 4 natSqrtQ (onesMat 10 4) [2, 3], r.length = 4) ∧
    encode 4 natSqrtQ (onesMat 10 4) [2, 3] = [[2, 2, 2, 2], [2, 2, 2, 2]] :=
  encode_gather_scale natSqrtQ 4 (onesMat 10 4) [2, 3]
    (by norm_num [natSqrtQ]) (by norm_num [natSqrtQ])
    (by decide) (by decide)

/-- Witness for C7 at the all-ones `[5, 2]` table. -/
theorem decode_scores_witness :
    (decode (onesMat 5 2) [1, 2]).length = 5 ∧
    decode (onesMat 5 2) [1, 2] = [3, 3, 3, 3, 3] :=
  decode_scores 5 (onesMat 5 2) [1, 2] (by decide)

lemma length_attnQuery (cfg : AttnConfig) (nm : Numerics) (pe : ℕ → Vec → Vec)
    (p : AttnParams) (kc vc : List (List Vec)) (xt : Vec) (qpos : ℕ)
    (mrow : List ℚ) :
    (attnQuery cfg nm pe p kc vc xt qpos mrow).length = p.wo.length := by
  simp [attnQuery, matVec]

lemma attnForward_out_shape (cfg : AttnConfig) (nm : Numerics) (pe : ℕ → Vec → Vec)
    (p : AttnParams) (x : List (List Vec)) (sp : List (List ℕ)) (c : LayerCache)
    (m : List (List (List ℚ))) (B T F : ℕ)
    (hx : x.length = B) (hxr : ∀ r ∈ x, r.length = T) (hwo : p.wo.length = F) :
    shape3 B T F (attnForward cfg nm pe p x sp c m).2 := by
  refine ⟨by simp [attnForward, hx], ?_⟩
  intro u hu
  simp only [attnForward, List.map_map, List.mem_map, List.mem_range,
    Function.comp] at hu
  obtain ⟨b, hb, rfl⟩ := hu
  have hbB : b < x.length := hb
  constructor
  · simp only [attnRow, List.length_map, List.length_range]
    rw [List.getD_eq_getElem _ _ hbB]
    exact hxr _ (List.getElem_mem _)
  · intro s hs
    simp only [attnRow, List.mem_map, List.mem_range] at hs
    obtain ⟨t, _, rfl⟩ := hs
    rw [length_attnQuery]
    exact hwo

lemma attnForward_cache_k_shape (cfg : AttnConfig) (nm : Numerics)
    (pe : ℕ → Vec → Vec) (p : AttnParams) (x : List (List Vec))
    (sp : List (List ℕ)) (c : LayerCache) (m : List (List (List ℚ)))
    (B C KV D : ℕ) (hx : x.length = B) (hck : shape4 B C KV D c.k)
    (hwk : p.wk.length = KV) (hwkm : ∀ mt ∈ p.wk, mt.length = D)
    (hpe : ∀ q v, (pe q v).length = v.length) :
    shape4 B C KV D (attnForward cfg nm pe p x sp c m).1.k := by
  refine ⟨by simp [attnForward, hx], ?_⟩
  intro u hu
  simp only [attnForward, List.map_map, List.mem_map, List.mem_range,
    Function.comp] at hu
  obtain ⟨b, hb, rfl⟩ := hu
  have hbB : b < c.k.length := by rw [hck.1]; exact hx ▸ hb
  have hrow : c.k.getD b [] ∈ c.k := by
    rw [List.getD_eq_getElem _ _ hbB]; exact List.getElem_mem _
  constructor
  · simp only [attnRow]
    rw [length_setAll]
    exact (hck.2 _ hrow).1
  · simp only [attnRow]
    apply setAll_forall (fun s => s.length = KV ∧ ∀ w ∈ s, w.length = D)
    · exact fun s hs => (hck.2 _ hrow).2 s hs
    · intro pn hpn
      have h2 := (List.of_mem_zip hpn).2
      rcases zipWith_mem _ _ _ pn.2 h2 with ⟨xt, _, pt, _, h⟩
      rw [h]
      refine ⟨by simp [hwk], ?_⟩
      intro w hw
      simp only [List.mem_map] at hw
      obtain ⟨mt, hmt, rfl⟩ := hw
      rw [hpe, length_matVec]
      exact hwkm _ hmt

/-- Claim C10: The Attention parameter structure is independent of
`attn_type` (by construction, `AttnParams` mentions no attention type):
the same parameter value `p`, shaped for the shared dimensions, feeds
both a `GLOBAL` and a `LOCAL_SLIDING` module, and both forward calls
succeed, producing outputs of shape `[batch, query_len, features]`. -/
theorem attn_params_shared_across_types (H KV F D W B T : ℕ) (nm : Numerics)
    (pe : ℕ → Vec → Vec) (p : AttnParams) (x : List (List Vec))
    (sp : List (List ℕ)) (c : LayerCache) (m : List (List (List ℚ)))
    (hx : x.length = B) (hxr : ∀ r ∈ x, r.length = T) (hwo : p.wo.length = F) :
    shape3 B T F (attnForward ⟨H, KV, F, D, .GLOBAL, none⟩ nm pe p x sp c m).2 ∧
    shape3 B T F
      (attnForward ⟨H, KV, F, D, .LOCAL_SLIDING, some W⟩ nm pe p x sp c m).2 :=
  ⟨attnForward_out_shape _ nm pe p x sp c m B T F hx hxr hwo,
    attnForward_out_shape _ nm pe p x sp c m B T F hx hxr hwo⟩

/-- The concrete attention parameters the witnesses use: all-ones
projections for the `num_heads=2, head_dim=4, features=8`
configuration of the sliding-window test. -/
def testAttnParams : AttnParams :=
  { wq := List.replicate 2 (onesMat 4 8)
  , wk := List.replicate 2 (onesMat 4 8)
  , wv := List.replicate 2 (onesMat 4 8)
  , wo := onesMat 8 8 }

/-- Degenerate numerics for witnesses: constant-one exponential. -/
def nmOne : Numerics := ⟨fun _ => 1, 1⟩

/-- Identity positional encoding for witnesses (rotation by angle 0). -/
def peId : ℕ → Vec → Vec := fun _ v => v

/-- All-ones input of shape `[2, 1, 8]`. -/
def xOnes : List (List Vec) := List.replicate 2 [List.replicate 8 1]

/-- Segment positions `[[0], [0]]`. -/
def segPos0 : List (List ℕ) := List.replicate 2 [0]

/-- All-ones attention mask of shape `[2, 1, 3]`. -/
def maskOnes : List (List (List ℚ)) := List.replicate 2 [List.replicate 3 1]

/-- Witness for C10 at the sliding-window test configuration. -/
theorem attn_params_shared_across_types_witness :
    shape3 2 1 8 (attnForward ⟨2, 2, 8, 4, .GLOBAL, none⟩ nmOne peId testAttnParams
      xOnes segPos0 (init_cache 3 2 4 2) maskOnes).2 ∧
    shape3 2 1 8 (attnForward ⟨2, 2, 8, 4, .LOCAL_SLIDING, some 2⟩ nmOne peId
      testAttnParams xOnes segPos0 (init_cache 3 2 4 2) maskOnes).2 :=
  attn_params_shared_across_types 2 2 8 4 2 2 1 nmOne peId testAttnParams
    xOnes segPos0 (init_cache 3 2 4 2) maskOnes
    (by decide) (by decide) (by decide)

lemma length_rmsNorm (rs : ℚ → ℚ) (np : NormParams) (x : Vec) :
    (rmsNorm rs np x).length = min x.length np.scale.length := by
  simp [rmsNorm]

lemma length_feedForward (act : ℚ → ℚ) (fp : FFWParams) (x : Vec) :
    (feedForward act fp x).length = fp.linear.length := by
  simp [feedForward, matVec]

lemma shape3_mapT3 (B T E : ℕ) (f : Vec → Vec) (t : List (List Vec))
    (ht : shape3 B T E t) (hf : ∀ v : Vec, v.length = E → (f v).length = E) :
    shape3 B T E (mapT3 f t) := by
  refine ⟨by simp [mapT3, ht.1], ?_⟩
  intro u hu
  simp only [mapT3, List.mem_map] at hu
  obtain ⟨u0, hu0, rfl⟩ := hu
  refine ⟨by simp [(ht.2 _ hu0).1], ?_⟩
  intro s hs
  simp only [List.mem_map] at hs
  obtain ⟨v, hv, rfl⟩ := hs
  exact hf v ((ht.2 _ hu0).2 v hv)

lemma shape3_addT3 (B T E : ℕ) (a b : List (List Vec))
    (ha : shape3 B T E a) (hb : shape3 B T E b) : shape3 B T E (addT3 a b) := by
  refine ⟨by simp [addT3, ha.1, hb.1], ?_⟩
  intro u hu
  rcases zipWith_mem _ _ _ u hu with ⟨u1, hu1, u2, hu2, rfl⟩
  refine ⟨by simp [(ha.2 _ hu1).1, (hb.2 _ hu2).1], ?_⟩
  intro s hs
  rcases zipWith_mem _ _ _ s hs with ⟨v1, hv1, v2, hv2, rfl⟩
  simp [addVec, (ha.2 _ hu1).2 v1 hv1, (hb.2 _ hu2).2 v2 hv2]

/-- The parameter shapes a Block expects for its configuration (only
the components the shape contract depends on). -/
def blockParamsOk (cfg : BlockConfig) (p : BlockParams) : Prop :=
  p.preAttnNorm.scale.length = cfg.embed_dim ∧
  p.postAttnNorm.scale.length = cfg.embed_dim ∧
  p.preFfwNorm.scale.length = cfg.embed_dim ∧
  p.postFfwNorm.scale.length = cfg.embed_dim ∧
  p.attn.wo.length = cfg.embed_dim ∧
  p.attn.wk.length = cfg.num_kv_heads ∧
  (∀ mt ∈ p.attn.wk, mt.length = cfg.head_dim) ∧
  p.ffw.linear.length = cfg.embed_dim

instance (cfg : BlockConfig) (p : BlockParams) : Decidable (blockParamsOk cfg p) := by
  unfold blockParamsOk
  infer_instance

/-- Claim C5: One Block step maps an input of shape
`[batch, query_len, embed_dim]` to an output of the same shape, and the
returned cache's key tensor has shape
`[batch, cache_size, num_kv_heads, head_dim]`. -/
theorem block_forward_shapes (cfg : BlockConfig) (nm : Numerics)
    (pe : ℕ → Vec → Vec) (rs act : ℚ → ℚ) (p : BlockParams)
    (x : List (List Vec)) (sp : List (List ℕ)) (cache : LayerCache)
    (m : List (List (List ℚ))) (B T C : ℕ)
    (hx : shape3 B T cfg.embed_dim x)
    (hp : blockParamsOk cfg p)
    (hck : shape4 B C cfg.num_kv_heads cfg.head_dim cache.k)
    (hpe : ∀ q v, (pe q v).length = v.length) :
    shape3 B T cfg.embed_dim (blockForward cfg nm pe rs act p x sp cache m).2 ∧
    shape4 B C cfg.num_kv_heads cfg.head_dim
      (blockForward cfg nm pe rs act p x sp cache m).1.k := by
  obtain ⟨h1, h2, h3, h4, h5, h6, h7, h8⟩ := hp
  have hnorm : ∀ (np : NormParams), np.scale.length = cfg.embed_dim →
      ∀ v : Vec, v.length = cfg.embed_dim → (rmsNorm rs np v).length = cfg.embed_dim := by
    intro np hnp v hv
    rw [length_rmsNorm, hnp, hv, min_self]
  have hxn : shape3 B T cfg.embed_dim (mapT3 (rmsNorm rs p.preAttnNorm) x) :=
    shape3_mapT3 _ _ _ _ _ hx (hnorm _ h1)
  have hattn : shape3 B T cfg.embed_dim
      (attnForward cfg.toAttnConfig nm pe p.attn
        (mapT3 (rmsNorm rs p.preAttnNorm) x) sp cache m).2 :=
    attnForward_out_shape _ _ _ _ _ _ _ _ _ _ _ hxn.1
      (fun r hr => (hxn.2 r hr).1) h5
  have hattnOut : shape3 B T cfg.embed_dim
      (if cfg.use_post_attn_norm then
        mapT3 (rmsNorm rs p.postAttnNorm)
          (attnForward cfg.toAttnConfig nm pe p.attn
            (mapT3 (rmsNorm rs p.preAttnNorm) x) sp cache m).2
      else (attnForward cfg.toAttnConfig nm pe p.attn
            (mapT3 (rmsNorm rs p.preAttnNorm) x) sp cache m).2) := by
    split
    · exact shape3_mapT3 _ _ _ _ _ hattn (hnorm _ h2)
    · exact hattn
  have hresid := shape3_addT3 _ _ _ _ _ hx hattnOut
  have hffw : shape3 B T cfg.embed_dim
      (mapT3 (feedForward act p.ffw)
        (mapT3 (rmsNorm rs p.preFfwNorm)
          (addT3 x (if cfg.use_post_attn_norm then
            mapT3 (rmsNorm rs p.postAttnNorm)
              (attnForward cfg.toAttnConfig nm pe p.attn
                (mapT3 (rmsNorm rs p.preAttnNorm) x) sp cache m).2
          else (attnForward cfg.toAttnConfig nm pe p.attn
                (mapT3 (rmsNorm rs p.preAttnNorm) x) sp cache m).2)))) := by
    refine shape3_mapT3 _ _ _ _ _ (shape3_mapT3 _ _ _ _ _ hresid (hnorm _ h3)) ?_
    intro v _
    rw [length_feedForward]
    exact h8
  have hffw2 : shape3 B T cfg.embed_dim
      (if cfg.use_post_ffw_norm then
        mapT3 (rmsNorm rs p.postFfwNorm)
          (mapT3 (feedForward act p.ffw)
            (mapT3 (rmsNorm rs p.preFfwNorm)
              (addT3 x (if cfg.use_post_attn_norm then
                mapT3 (rmsNorm rs p.postAttnNorm)
                  (attnForward cfg.toAttnConfig nm pe p.attn
                    (mapT3 (rmsNorm rs p.preAttnNorm) x) sp cache m).2
              else (attnForward cfg.toAttnConfig nm pe p.attn
                    (mapT3 (rmsNorm rs p.preAttnNorm) x) sp cache m).2))))
      else mapT3 (feedForward act p.ffw)
            (mapT3 (rmsNorm rs p.preFfwNorm)
              (addT3 x (if cfg.use_post_attn_norm then
                mapT3 (rmsNorm rs p.postAttnNorm)
                  (attnForward cfg.toAttnConfig nm pe p.attn
                    (mapT3 (rmsNorm rs p.preAttnNorm) x) sp cache m).2
              else (attnForward cfg.toAttnConfig nm pe p.attn
                    (mapT3 (rmsNorm rs p.preAttnNorm) x) sp cache m).2)))) := by
    split
    · exact shape3_mapT3 _ _ _ _ _ hffw (hnorm _ h4)
    · exact hffw
  constructor
  · exact shape3_addT3 _ _ _ _ _ hresid hffw2
  · exact attnForward_cache_k_shape _ _ _ _ _ _ _ _ _ _ _ _ hxn.1 hck h6 h7 hpe

/-- A zero matrix. -/
def zerosMat (r c : ℕ) : Mat := List.replicate r (List.replicate c 0)

/-- The Block configuration of the post-norm tests: `num_heads = 1`,
`embed_dim = 1`, `head_dim = 2`, `hidden_dim = 1`, no post norms. -/
def testBlockConfig : BlockConfig :=
  ⟨1, 1, 1, 2, 1, false, false, .GLOBAL, none⟩

/-- Concrete Block parameters for the witnesses: all-ones attention
projections, zero feed-forward weights (as the upstream initializer
produces), zero norm scales. -/
def testBlockParams : BlockParams :=
  { preAttnNorm := ⟨[0], 0⟩
  , attn :=
      { wq := [onesMat 2 1], wk := [onesMat 2 1], wv := [onesMat 2 1]
      , wo := onesMat 1 2 }
  , postAttnNorm := ⟨[0], 0⟩
  , preFfwNorm := ⟨[0], 0⟩
  , ffw := { gating1 := zerosMat 1 1, gating2 := zerosMat 1 1, linear := zerosMat 1 1 }
  , postFfwNorm := ⟨[0], 0⟩ }

/-- Witness for C5 at the `num_heads=1, embed_dim=1, head_dim=2,
cache_size=1, batch=1` configuration. -/
theorem block_forward_shapes_witness :
    shape3 1 1 testBlockConfig.embed_dim
      (blockForward testBlockConfig nmOne peId (fun _ => 1) (fun _ => 1)
        testBlockParams [[[1]]] [[0]] (init_cache 1 1 2 1) [[[1]]]).2 ∧
    shape4 1 1 testBlockConfig.num_kv_heads testBlockConfig.head_dim
      (blockForward testBlockConfig nmOne peId (fun _ => 1) (fun _ => 1)
        testBlockParams [[[1]]] [[0]] (init_cache 1 1 2 1) [[[1]]]).1.k :=
  block_forward_shapes testBlockConfig nmOne peId (fun _ => 1) (fun _ => 1)
    testBlockParams [[[1]]] [[0]] (init_cache 1 1 2 1) [[[1]]] 1 1 1
    (by decide) (by decide) (by decide) (fun q v => rfl)

lemma dot_nil_left (v : Vec) : dot [] v = 0 := by simp [dot]

lemma dot_nil_right (v : Vec) : dot v [] = 0 := by
  cases v <;> simp [dot]

lemma dot_zero_cons (t v : Vec) : dot (0 :: t) v = dot t v.tail := by
  cases v with
  | nil => simp [dot]
  | cons a u => simp [dot, List.zipWith]

lemma dot_cons_cons (a b : ℚ) (t u : Vec) :
    dot (a :: t) (b :: u) = a * b + dot t u := by
  simp [dot]

/-- The first scalar of a `[batch, query_len, features]` output. -/
def elem000 (t : List (List Vec)) : ℚ := ((t.getD 0 []).getD 0 []).getD 0 0

/-- Claim C1: At the sliding-window test configuration (`num_heads=2,
head_dim=4, features=8, cache_size=3, batch=2`, query at
`segment_pos=0`, all-ones mask, zero-initialized cache, fixed all-ones
parameters shared by both calls), GLOBAL attention and LOCAL_SLIDING
attention with `sliding_window_size=2` produce different outputs: the
global softmax spreads weight over all three cache slots while the
sliding window admits only the slot holding the new key/value, so at
least one output element differs — for every positional encoding and
every positive softmax exponential. -/
theorem global_differs_from_sliding (nm : Numerics) (pe : ℕ → Vec → Vec)
    (h : ∀ a, 0 < nm.fexp a) :
    (attnForward ⟨2, 2, 8, 4, .GLOBAL, none⟩ nm pe testAttnParams xOnes segPos0
      (init_cache 3 2 4 2) maskOnes).2 ≠
    (attnForward ⟨2, 2, 8, 4, .LOCAL_SLIDING, some 2⟩ nm pe testAttnParams xOnes
      segPos0 (init_cache 3 2 4 2) maskOnes).2 := by
  intro heq
  have h0 : elem000 (attnForward ⟨2, 2, 8, 4, .GLOBAL, none⟩ nm pe testAttnParams
      xOnes segPos0 (init_cache 3 2 4 2) maskOnes).2 =
      elem000 (attnForward ⟨2, 2, 8, 4, .LOCAL_SLIDING, some 2⟩ nm pe
        testAttnParams xOnes segPos0 (init_cache 3 2 4 2) maskOnes).2 := by
    rw [heq]
  simp only [attnForward, attnRow, attnQuery, attendHead, headWeights, weightedSum,
    slidingMask, setAll, testAttnParams, xOnes, segPos0, maskOnes, init_cache,
    onesMat, matVec, elem000, dot_nil_left, dot_nil_right, dot_zero_cons,
    dot_cons_cons, addVec, List.replicate, List.range_succ,
    List.range_zero, List.map_nil, List.map_cons, List.zipWith_cons_cons,
    List.zipWith_nil_left, List.zipWith_nil_right, List.foldl_cons, List.foldl_nil,
    List.foldr_cons, List.foldr_nil, List.getD_cons_zero, List.getD_cons_succ,
    List.set_cons_zero, List.set_cons_succ, List.zip_cons_cons, List.zip_nil_left,
    List.zip_nil_right, List.length_cons, List.length_nil, List.flatten,
    List.sum_cons, List.sum_nil, List.tail_cons, List.nil_append,
    List.cons_append, List.append_nil, Nat.zero_mod, mul_zero, zero_mul, add_zero,
    zero_add, one_mul, mul_one] at h0
  simp only [dot_nil_left, dot_nil_right, dot_zero_cons, dot_cons_cons,
    List.tail_cons, mul_zero, zero_mul, add_zero, zero_add, one_mul, mul_one,
    Nat.sub_zero, Nat.le_refl, Nat.zero_sub] at h0
  norm_num at h0
  have hz : dot [0, 0, 0, 0] (pe 0 [8, 8, 8, 8]) = 0 := by
    simp [dot_zero_cons, dot_nil_left]
  simp only [hz, mul_zero, dot_cons_cons, dot_nil_right, one_mul, add_zero] at h0
  set c := nm.fexp (nm.scale * dot (pe 0 [8, 8, 8, 8]) (pe 0 [8, 8, 8, 8])) with hc
  set d := nm.fexp 0 with hd
  have hcp : 0 < c := h _
  have hdp : 0 < d := h _
  have hne : c + (d + d) ≠ 0 := by positivity
  have hcne : c ≠ 0 := ne_of_gt hcp
  field_simp at h0
  nlinarith [mul_pos hcp hdp]

/-- Witness for C1 at the constant-one exponential and the identity
positional encoding. -/
theorem global_differs_from_sliding_witness :
    (attnForward ⟨2, 2, 8, 4, .GLOBAL, none⟩ nmOne peId testAttnParams xOnes
      segPos0 (init_cache 3 2 4 2) maskOnes).2 ≠
    (attnForward ⟨2, 2, 8, 4, .LOCAL_SLIDING, some 2⟩ nmOne peId testAttnParams
      xOnes segPos0 (init_cache 3 2 4 2) maskOnes).2 :=
  global_differs_from_sliding nmOne peId (fun a => by simp [nmOne])

/-- Claim C9: For generic (non-degenerate) normalization — any inverse
root `rs` with `rs 1 ≠ 0` and `rs ((rs 1 + rs 1)^2) ≠ 1`, satisfied by
the true inverse square root — a Block with `use_post_attn_norm = true`
produces a different output than the otherwise identically configured
and identically parameterized Block with `use_post_attn_norm = false`,
at the `num_heads=1, embed_dim=1, head_dim=2, hidden_dim=1,
cache_size=1, batch=1` test configuration. -/
theorem post_attn_norm_modifies_output (nm : Numerics) (pe : ℕ → Vec → Vec)
    (rs act : ℚ → ℚ) (hE : ∀ a, 0 < nm.fexp a) (h1 : rs 1 ≠ 0)
    (h2 : rs ((rs 1 + rs 1) * (rs 1 + rs 1)) ≠ 1) :
    (blockForward ⟨1, 1, 1, 2, 1, true, false, .GLOBAL, none⟩ nm pe rs act
      testBlockParams [[[1]]] [[0]] (init_cache 1 1 2 1) [[[1]]]).2 ≠
    (blockForward testBlockConfig nm pe rs act
      testBlockParams [[[1]]] [[0]] (init_cache 1 1 2 1) [[[1]]]).2 := by
  intro heq
  have h0 : elem000 (blockForward ⟨1, 1, 1, 2, 1, true, false, .GLOBAL, none⟩ nm pe
      rs act testBlockParams [[[1]]] [[0]] (init_cache 1 1 2 1) [[[1]]]).2 =
      elem000 (blockForward testBlockConfig nm pe rs act
        testBlockParams [[[1]]] [[0]] (init_cache 1 1 2 1) [[[1]]]).2 := by
    rw [heq]
  simp only [blockForward, BlockConfig.toAttnConfig, attnForward, attnRow,
    attnQuery, attendHead, headWeights, weightedSum, slidingMask, setAll, rmsNorm,
    feedForward, mapT3, addT3, testBlockParams, testBlockConfig, zerosMat, onesMat,
    init_cache, matVec, elem000, dot_nil_left, dot_nil_right, dot_zero_cons,
    dot_cons_cons, addVec, List.replicate, List.range_succ,
    List.range_zero, List.map_nil, List.map_cons, List.zipWith_cons_cons,
    List.zipWith_nil_left, List.zipWith_nil_right, List.foldl_cons, List.foldl_nil,
    List.foldr_cons, List.foldr_nil, List.getD_cons_zero, List.getD_cons_succ,
    List.set_cons_zero, List.set_cons_succ, List.zip_cons_cons, List.zip_nil_left,
    List.zip_nil_right, List.length_cons, List.length_nil, List.flatten,
    List.sum_cons, List.sum_nil, List.tail_cons, List.nil_append,
    List.cons_append, List.append_nil, Nat.zero_mod, mul_zero, zero_mul, add_zero,
    zero_add, one_mul, mul_one, if_true, if_false] at h0
  norm_num at h0
  set e := nm.fexp (nm.scale * dot (pe 0 [rs 1, rs 1]) (pe 0 [rs 1, rs 1])) with he0
  have hepos : 0 < e := he0 ▸ hE _
  have hcan : e * rs 1 / e = rs 1 := mul_div_cancel_left₀ _ (ne_of_gt hepos)
  simp only [hcan, dot_cons_cons, dot_nil_right, one_mul, add_zero] at h0
  simp only [feedForward, rmsNorm, matVec, addVec, dot_nil_left, dot_nil_right,
    dot_zero_cons, dot_cons_cons, List.map_nil, List.map_cons,
    List.zipWith_cons_cons, List.zipWith_nil_left, List.zipWith_nil_right,
    List.sum_cons, List.sum_nil, List.length_cons, List.length_nil,
    List.tail_cons, List.getElem?_cons_zero, Option.getD_some, mul_zero,
    zero_mul, add_zero, zero_add, one_mul, mul_one] at h0
  norm_num at h0
  have h2n : rs 1 + rs 1 ≠ 0 := by
    intro hz
    apply h1
    linarith
  have hmul : (rs 1 + rs 1) * rs ((rs 1 + rs 1) * (rs 1 + rs 1)) =
      (rs 1 + rs 1) * 1 := by
    rw [mul_one]
    linarith
  exact h2 (mul_left_cancel₀ h2n hmul)

/-- Witness for C9 at the constant-one exponential, identity positional
encoding, constant-two inverse root and constant-one activation. -/
theorem post_attn_norm_modifies_output_witness :
    (blockForward ⟨1, 1, 1, 2, 1, true, false, .GLOBAL, none⟩ nmOne peId
      (fun _ => 2) (fun _ => 1) testBlockParams [[[1]]] [[0]]
      (init_cache 1 1 2 1) [[[1]]]).2 ≠
    (blockForward testBlockConfig nmOne peId (fun _ => 2) (fun _ => 1)
      testBlockParams [[[1]]] [[0]] (init_cache 1 1 2 1) [[[1]]]).2 :=
  post_attn_norm_modifies_output nmOne peId (fun _ => 2) (fun _ => 1)
    (fun a => by simp [nmOne]) (by norm_num) (by norm_num)

end GemmaSpec
